import Mathlib

/-!
Verification of the subscription-ledger aggregation pipeline of the
Employer Subscription Portal dashboard.

Timestamps are modelled as integers counting seconds (the SQL columns are
DATETIME values; `pandas` parses them to timezone-aware timestamps).  A
calendar day is the floor of the timestamp divided by 86400, matching
`Series.dt.date`.  Nullable table fields are `Option`s: `none` models a SQL
NULL / pandas `NaT` / `NaN`, which `pd.to_datetime(..., errors="coerce")`
and `pd.to_numeric(..., errors="coerce")` produce for unparsable values.
Monetary amounts are rationals.
-/

namespace EmployerSubs

/-- Seconds in a calendar day. -/
def secPerDay : ℤ := 86400

/-- Calendar day of a timestamp (`Series.dt.date`); `Int` division is
floor division for the positive divisor, matching pandas. -/
def dayOf (t : ℤ) : ℤ := t / secPerDay

/-- One row of the `graph_subscription` table after the friendly renaming
done by `Data/get_localsqldata.py` (`dateUTC` ↦ `Date`, `type` ↦
`Subscription_Type`, `country` ↦ `Location`, `userID` ↦ `User_ID`).
Fields the verified pages do not read are omitted. -/
structure RawRecord where
  date : Option ℤ
  subscriptionType : Option String
  lastPaymentReceivedOn : Option ℤ
  lastAmountPaidEUR : Option ℚ
  location : Option String
  userId : Option ℤ
  initialSubsStartDate : Option ℤ
  subscriptionCanceledAt : Option ℤ
deriving DecidableEq

/-- Lower-casing by mapping over the unpacked character data; this is the
same operation as `String.toLower`, whose position-based loop the kernel
cannot evaluate. -/
def lowerStr (s : String) : String := ⟨s.data.map Char.toLower⟩

/-- `df["Subscription_Type"].astype(str).str.lower()`: a missing value is
stringified by pandas to the literal text `nan` before lower-casing. -/
def typeNorm (r : RawRecord) : String :=
  lowerStr (r.subscriptionType.getD ("nan"))

/-- The paid subscription types (`valid_types` in `revenue_insights.py`,
`paid_types` in `paid_subs_insights.py`). -/
def paidTypes : List String := ["new", "renewed", "upgraded"]

/-- Membership of the normalized type in the paid set
(`df["type_norm"].isin(valid_types)`). -/
def typeOk (r : RawRecord) : Bool := paidTypes.contains (typeNorm r)

/-- `df["lastPaymentReceivedOn"] >= df["Date"]`; a pandas comparison with
`NaT` on either side is `False`. -/
def payOk (r : RawRecord) : Bool :=
  match r.lastPaymentReceivedOn, r.date with
  | some p, some d => decide (d ≤ p)
  | _, _ => false

/-- The four-column presence test of `revenue_insights.py`
(`df.dropna(subset=["lastPaymentReceivedOn", "Date", "lastAmountPaidEUR",
"Subscription_Type"])`). -/
def fieldsOkRev (r : RawRecord) : Bool :=
  r.lastPaymentReceivedOn.isSome && r.date.isSome &&
    r.lastAmountPaidEUR.isSome && r.subscriptionType.isSome

/-- The presence test of `revenue_insights.py` without the amount column:
what the dropna would require if missing amounts were coerced instead of
dropped. -/
def fieldsOkRevNoAmount (r : RawRecord) : Bool :=
  r.lastPaymentReceivedOn.isSome && r.date.isSome && r.subscriptionType.isSome

/-- `revenue_insights.py`: drop rows with a missing required field. -/
def revenueDropna (rows : List RawRecord) : List RawRecord :=
  rows.filter fieldsOkRev

/-- `revenue_insights.py`: keep the rows whose normalized type is paid. -/
def revenueTypeFiltered (rows : List RawRecord) : List RawRecord :=
  (revenueDropna rows).filter typeOk

/-- `df_clean` of `revenue_insights.py`: additionally require
`lastPaymentReceivedOn >= Date`. -/
def revenueCleanRows (rows : List RawRecord) : List RawRecord :=
  (revenueTypeFiltered rows).filter payOk

/-- Two-column presence test of `paid_subs_insights.py`
(`df.dropna(subset=["Date", "Subscription_Type"])`). -/
def fieldsOkPS (r : RawRecord) : Bool :=
  r.date.isSome && r.subscriptionType.isSome

/-- `paid_subs_insights.py`: drop rows missing `Date` or type. -/
def paidSubsDropna (rows : List RawRecord) : List RawRecord :=
  rows.filter fieldsOkPS

/-- `df_paid` of `paid_subs_insights.py`: the rows the paid-volume page
counts as paid subscriptions — filtered by type only. -/
def paidSubsPaidRows (rows : List RawRecord) : List RawRecord :=
  (paidSubsDropna rows).filter typeOk

/-! ## Revenue aggregation (`revenue_insights.py`) -/

/-- Amount of a row, with `getD` standing for the fact that the cleaned
rows always carry a parsed amount. -/
def amountOf (r : RawRecord) : ℚ := r.lastAmountPaidEUR.getD 0

/-- Payment timestamp of a cleaned row. -/
def payTs (r : RawRecord) : ℤ := r.lastPaymentReceivedOn.getD 0

/-- Calendar day of the payment (`df_clean["lastPaymentReceivedOn"].dt.date`). -/
def payDay (r : RawRecord) : ℤ := dayOf (payTs r)

/-- `df_clean["lastAmountPaidEUR"].sum()`. -/
def totalRevenue (rows : List RawRecord) : ℚ :=
  ((revenueCleanRows rows).map amountOf).sum

/-- `df_clean["lastPaymentReceivedOn"].min()`. -/
def minPayTs (rows : List RawRecord) : ℤ :=
  (((revenueCleanRows rows).map payTs).min?).getD 0

/-- `df_clean["lastPaymentReceivedOn"].max()`. -/
def maxPayTs (rows : List RawRecord) : ℤ :=
  (((revenueCleanRows rows).map payTs).max?).getD 0

/-- `total_days_period = (global_max_date - global_min_date).days + 1`,
floored to `1`; `Timedelta.days` of a non-negative delta is the floor of
the span in days. -/
def totalDaysPeriod (rows : List RawRecord) : ℤ :=
  let p := (maxPayTs rows - minPayTs rows) / secPerDay + 1
  if p < 1 then 1 else p

/-- Keep the first occurrence of every value, in order of first
appearance (`Series.unique`, `drop_duplicates(keep="first")` on keys);
`seen` accumulates the values already emitted. -/
def firstUniquesAux {α : Type} [DecidableEq α] (seen : List α) :
    List α → List α
  | [] => []
  | x :: xs =>
    if x ∈ seen then firstUniquesAux seen xs
    else x :: firstUniquesAux (x :: seen) xs

/-- First occurrences of a list, duplicates removed. -/
def firstUniques {α : Type} [DecidableEq α] (l : List α) : List α :=
  firstUniquesAux [] l

/-- The distinct active payment days of the cleaned rows, ascending: the
group keys `groupby(dt.date)` emits. -/
def dailyDays (rows : List RawRecord) : List ℤ :=
  List.insertionSort (· ≤ ·) (firstUniques ((revenueCleanRows rows).map payDay))

/-- Revenue summed over one payment day. -/
def dailyRevenue (rows : List RawRecord) (d : ℤ) : ℚ :=
  (((revenueCleanRows rows).filter fun r => decide (payDay r = d)).map amountOf).sum

/-- `daily_sums`: per-day revenue, keyed and sorted ascending by day, the
order `groupby` emits its groups in. -/
def dailySums (rows : List RawRecord) : List (ℤ × ℚ) :=
  (dailyDays rows).map fun d => (d, dailyRevenue rows d)

/-- `active_days_count_global = len(daily_sums)`. -/
def activeDayCount (rows : List RawRecord) : ℕ :=
  (dailySums rows).length

/-- `avg_daily_all_days = total_rev_overall / total_days_period`. -/
def avgAllDays (rows : List RawRecord) : ℚ :=
  totalRevenue rows / (totalDaysPeriod rows : ℚ)

/-- `avg_daily_active_days`, zero-guarded exactly as in the source. -/
def avgActiveDays (rows : List RawRecord) : ℚ :=
  if 0 < activeDayCount rows then totalRevenue rows / (activeDayCount rows : ℚ)
  else 0

/-- `total_month_rev = group["Daily_Revenue"].sum()` over one month group
of `daily_sums` (a list of `(day, revenue)` buckets). -/
def monthlyTotal (group : List (ℤ × ℚ)) : ℚ := (group.map Prod.snd).sum

/-- `avg_all_days = total_month_rev / days_in_month`; the month length is
the calendar value `sample_date.days_in_month` supplied by pandas, taken
here as a parameter. -/
def monthlyAvgAllDays (group : List (ℤ × ℚ)) (daysInMonth : ℕ) : ℚ :=
  monthlyTotal group / (daysInMonth : ℚ)

/-- `avg_active_days = total_month_rev / active_days_count if
active_days_count > 0 else 0` with `active_days_count = len(group)`. -/
def monthlyAvgActiveDays (group : List (ℤ × ℚ)) : ℚ :=
  if 0 < group.length then monthlyTotal group / (group.length : ℚ) else 0

/-! ## First-match extremum (`idxmax` / `idxmin` over a bucketed series)

`Series.idxmax` returns the index label of the first row attaining the
maximum.  Over a series laid out in ascending date order this is the
earliest such date. -/

/-- First pair attaining the maximal second component: the head wins
unless a strictly larger value appears later (`idxmax` first-match). -/
def argmaxFirst {β : Type} [LinearOrder β] : List (ℤ × β) → Option (ℤ × β)
  | [] => none
  | p :: ps =>
    match argmaxFirst ps with
    | none => some p
    | some q => if p.2 < q.2 then some q else some p

/-- First pair attaining the minimal second component (`idxmin`). -/
def argminFirst {β : Type} [LinearOrder β] : List (ℤ × β) → Option (ℤ × β)
  | [] => none
  | p :: ps =>
    match argminFirst ps with
    | none => some p
    | some q => if q.2 < p.2 then some q else some p

/-! ## Paid-volume aggregation (`paid_subs_insights.py`) -/

/-- Calendar day of the subscription event (`df_paid["Date"].dt.date`). -/
def eventDay (r : RawRecord) : ℤ := dayOf (r.date.getD 0)

/-- Distinct event days of the paid rows, ascending. -/
def psDailyDays (rows : List RawRecord) : List ℤ :=
  List.insertionSort (· ≤ ·) (firstUniques ((paidSubsPaidRows rows).map eventDay))

/-- `daily_counts`: paid subscriptions per event day, ascending by day. -/
def psDailyCounts (rows : List RawRecord) : List (ℤ × ℕ) :=
  (psDailyDays rows).map fun d =>
    (d, ((paidSubsPaidRows rows).filter fun r => decide (eventDay r = d)).length)

/-! ## Filter Stage (`daily_overview.py`, callback B step 4) -/

/-- `df[df["Date"] >= pd.to_datetime(start_date)]` at row level; a `NaT`
date compares `False`. -/
def dateGeB (r : RawRecord) (ts : ℤ) : Bool :=
  match r.date with
  | some t => decide (ts ≤ t)
  | none => false

/-- `df[df["Date"] <= pd.to_datetime(end_date)]` at row level. -/
def dateLeB (r : RawRecord) (ts : ℤ) : Bool :=
  match r.date with
  | some t => decide (t ≤ ts)
  | none => false

/-- `df["Location"].isin(selected_countries)`; `NaN` is never a member. -/
def locIn (r : RawRecord) (cs : List String) : Bool :=
  match r.location with
  | some c => cs.contains c
  | none => false

/-- `df["Subscription_Type"].isin(selected_types)`. -/
def typeIn (r : RawRecord) (ts : List String) : Bool :=
  match r.subscriptionType with
  | some ty => ts.contains ty
  | none => false

/-- The four sequential masks of `update_daily_overview`.  The bounds are
day numbers from the date picker; `pd.to_datetime` turns them into the
midnight timestamps the rows are compared against.  An absent bound skips
its mask; an empty country or type list is falsy in Python and also skips
its mask. -/
def applyFilters (rows : List RawRecord) (startDay endDay : Option ℤ)
    (countries types : List String) : List RawRecord :=
  let d1 := match startDay with
    | some s => rows.filter fun r => dateGeB r (s * secPerDay)
    | none => rows
  let d2 := match endDay with
    | some e => d1.filter fun r => dateLeB r (e * secPerDay)
    | none => d1
  let d3 := if countries.isEmpty then d2 else d2.filter fun r => locIn r countries
  if types.isEmpty then d3 else d3.filter fun r => typeIn r types

/-- Row-level conjunction of the supplied predicates. -/
def passesFilters (startDay endDay : Option ℤ) (countries types : List String)
    (r : RawRecord) : Bool :=
  (match startDay with
    | some s => dateGeB r (s * secPerDay)
    | none => true) &&
  (match endDay with
    | some e => dateLeB r (e * secPerDay)
    | none => true) &&
  (countries.isEmpty || locIn r countries) &&
  (types.isEmpty || typeIn r types)

/-! ## Generic list helpers shared by several pages -/

/-- `drop_duplicates(subset=["User_ID"], keep="first")`: keep the first
row for each user id (pandas treats two `NaN` ids as duplicates, as the
`Option` equality does here). -/
def dedupByUserAux (seen : List (Option ℤ)) :
    List RawRecord → List RawRecord
  | [] => []
  | r :: rs =>
    if r.userId ∈ seen then dedupByUserAux seen rs
    else r :: dedupByUserAux (r.userId :: seen) rs

/-- Deduplicate rows on `User_ID`, keeping first occurrences. -/
def dedupByUser (rows : List RawRecord) : List RawRecord :=
  dedupByUserAux [] rows

/-- `Series.mean()` with pandas returning `NaN` only on empty input,
which the page never reaches (guarded by `total_subscribers > 0`). -/
def meanQ (l : List ℚ) : ℚ :=
  if l.length = 0 then 0 else l.sum / (l.length : ℚ)

/-- `Series.median()`: middle element of the sorted values, or the mean
of the two middle elements for even length. -/
def medianQ (l : List ℚ) : ℚ :=
  let s := List.insertionSort (· ≤ ·) l
  if s.length = 0 then 0
  else if s.length % 2 = 1 then s.getD (s.length / 2) 0
  else (s.getD (s.length / 2 - 1) 0 + s.getD (s.length / 2) 0) / 2

/-- `Series.min()`. -/
def minQ (l : List ℚ) : ℚ := (l.min?).getD 0

/-- `Series.max()`. -/
def maxQ (l : List ℚ) : ℚ := (l.max?).getD 0

/-! ## Subscription duration page (`subscription_duration.py`) -/

/-- Rows with a parsed `initialSubsStartDate`
(`df.dropna(subset=["initialSubsStartDate"])`). -/
def sdDropna (rows : List RawRecord) : List RawRecord :=
  rows.filter fun r => r.initialSubsStartDate.isSome

/-- `sort_values(by="initialSubsStartDate", ascending=False)`. -/
def sdSorted (rows : List RawRecord) : List RawRecord :=
  List.insertionSort
    (fun a b => b.initialSubsStartDate.getD 0 ≤ a.initialSubsStartDate.getD 0)
    (sdDropna rows)

/-- The deduplicated per-user rows of the duration page. -/
def sdDedup (rows : List RawRecord) : List RawRecord :=
  dedupByUser (sdSorted rows)

/-- Start timestamp of a row that survived `sdDropna`. -/
def sdStart (r : RawRecord) : ℤ := r.initialSubsStartDate.getD 0

/-- `calculate_duration`: `(end - start).total_seconds() / 86400` for a
cancelled row, `(now_utc - start).total_seconds() / 86400` for an active
one.  `now` is the wall-clock timestamp `pd.Timestamp.now(timezone.utc)`
read inside the callback. -/
def sdDurationRaw (now : ℤ) (r : RawRecord) : ℚ :=
  match r.subscriptionCanceledAt with
  | some e => ((e - sdStart r : ℤ) : ℚ) / (secPerDay : ℚ)
  | none => ((now - sdStart r : ℤ) : ℚ) / (secPerDay : ℚ)

/-- `Duration_Days.apply(lambda x: x if x >= 0 else 0)`. -/
def sdDuration (now : ℤ) (r : RawRecord) : ℚ :=
  if 0 ≤ sdDurationRaw now r then sdDurationRaw now r else 0

/-- The clamped per-user durations of the page. -/
def sdDurations (rows : List RawRecord) (now : ℤ) : List ℚ :=
  (sdDedup rows).map (sdDuration now)

/-- The range filter `Duration_Days >= start_range & Duration_Days <=
end_range`; the page defaults an empty min box to `0` and an empty max
box to `99999` before this point. -/
def sdFiltered (rows : List RawRecord) (now : ℤ) (lo hi : ℚ) : List ℚ :=
  (sdDurations rows now).filter fun q => decide (lo ≤ q) && decide (q ≤ hi)

/-- The `(mean, median, min, max)` statistics block, zero-valued when the
range filter left no user (`if total_subscribers > 0 ... else 0`). -/
def sdStats (rows : List RawRecord) (now : ℤ) (lo hi : ℚ) : ℚ × ℚ × ℚ × ℚ :=
  let l := sdFiltered rows now lo hi
  if 0 < l.length then (meanQ l, medianQ l, minQ l, maxQ l)
  else (0, 0, 0, 0)

/-! ## Churn model script (`churn_analysis.py`) -/

/-- `X["lastAmountPaidEUR"].fillna(0)`: a missing amount becomes `0`. -/
def churnLastAmount (r : RawRecord) : ℚ := r.lastAmountPaidEUR.getD 0

/-- `Tenure_Days`: `(subscriptionCanceledAt - initialSubsStartDate).days`
for churned rows, `(today - initialSubsStartDate).days` otherwise, then
`max(0, x)`; `Timedelta.days` floors. -/
def churnTenureDays (today : ℤ) (r : RawRecord) : ℤ :=
  let raw :=
    match r.subscriptionCanceledAt with
    | some e => (e - r.initialSubsStartDate.getD 0) / secPerDay
    | none => (today - r.initialSubsStartDate.getD 0) / secPerDay
  max 0 raw

/-! ## Retention page (`user_retention.py`) -/

/-- `calculate_duration` of the retention page followed by
`fillna(0).clip(lower=0)`. -/
def urDuration (now : ℤ) (r : RawRecord) : ℚ :=
  let start := r.initialSubsStartDate.getD 0
  let raw :=
    match r.subscriptionCanceledAt with
    | some e => ((e - start : ℤ) : ℚ) / (secPerDay : ℚ)
    | none => ((now - start : ℤ) : ℚ) / (secPerDay : ℚ)
  max 0 raw

/-! ## Gap-Filling Stage (`daily_overview.py`, callback B step 6B) -/

/-- The observed group keys: `groupby(["date_only", "Subscription_Type"])`
silently drops rows whose day or type is missing. -/
def observedPairs (rows : List RawRecord) : List (ℤ × String) :=
  rows.filterMap fun r =>
    match r.date, r.subscriptionType with
    | some t, some ty => some (dayOf t, ty)
    | _, _ => none

/-- `df_grouped`: one entry per observed key, in first-appearance order,
carrying the key's row count (`groupby(...).size()`). -/
def groupedCounts (rows : List RawRecord) : List ((ℤ × String) × ℕ) :=
  (firstUniques (observedPairs rows)).map fun k => (k, (observedPairs rows).count k)

/-- Value lookup of `reindex(multi_idx, fill_value=0)`: an absent key —
in particular any key with a missing type, which `groupby` never emitted —
gets `0`. -/
def lookupCount (g : List ((ℤ × String) × ℕ)) (d : ℤ) (ty : Option String) : ℕ :=
  match ty with
  | none => 0
  | some s =>
    match g.find? fun p => decide (p.1 = (d, s)) with
    | some p => p.2
    | none => 0

/-- `pd.date_range(start=min_d, end=max_d, freq="D")` as day numbers. -/
def fullDayRange (lo hi : ℤ) : List ℤ :=
  (List.range (hi + 1 - lo).toNat).map fun (i : ℕ) => lo + (i : ℤ)

/-- `unique_types = selected_types if selected_types else
df["Subscription_Type"].unique()`; `Series.unique` keeps first
occurrences and may include the missing value. -/
def uniqueTypesOf (rows : List RawRecord) (sel : List String) : List (Option String) :=
  if sel.isEmpty then firstUniques (rows.map fun r => r.subscriptionType)
  else sel.map some

/-- The gap-filled series: `set_index.reindex(multi_idx, fill_value=0)`
over `multi_idx = MultiIndex.from_product([full_date_range, unique_types])`,
one row per product key carrying the looked-up count. -/
def gapFilled (rows : List RawRecord) (lo hi : ℤ) (sel : List String) :
    List ((ℤ × Option String) × ℕ) :=
  (fullDayRange lo hi).flatMap fun d =>
    (uniqueTypesOf rows sel).map fun ty => ((d, ty), lookupCount (groupedCounts rows) d ty)

/-! ## Page result shape and the revenue page (`revenue_insights.py`) -/

/-- Bootstrap alert colors used by the dashboards: `warning` and
`success` are informational banners, `danger` is an error banner. -/
inductive AlertColor
  | warning
  | danger
  | success
deriving DecidableEq

/-- Headline numbers of the revenue page. -/
structure RevenueKpis where
  total : ℚ
  periodDays : ℤ
  avgAll : ℚ
  avgActive : ℚ
  maxDay : Option (ℤ × ℚ)
  minDay : Option (ℤ × ℚ)
deriving DecidableEq

/-- What a page callback returns: an alert banner or rendered content. -/
inductive PageOutput
  | alert (c : AlertColor)
  | content (k : RevenueKpis)
deriving DecidableEq

/-- `update_insights`: empty store and filtered-to-empty data short-circuit
to warning alerts before any statistic is computed; otherwise the KPI
block is built from the cleaned rows. -/
def revenuePage (rows : List RawRecord) : PageOutput :=
  if rows.isEmpty then .alert .warning
  else if (revenueCleanRows rows).isEmpty then .alert .warning
  else
    .content
      { total := totalRevenue rows
        periodDays := totalDaysPeriod rows
        avgAll := avgAllDays rows
        avgActive := avgActiveDays rows
        maxDay := argmaxFirst (dailySums rows)
        minDay := argminFirst (dailySums rows) }

/-! ## Remote fetch and app start (`Data/data_fetch.py`, `main/app.py`) -/

/-- The connection document: only the `host` key is inspected by the
guard (`if not config or not config.get("host")`); an empty string is
falsy in Python. -/
structure DbConfig where
  host : Option String
deriving DecidableEq

/-- Outcome of `pd.read_sql` against the remote database. -/
inductive FetchOutcome
  | err
  | ok (rows : List RawRecord)

/-- `get_remote_data`: abort on missing configuration or host, `None` on
a raised fetch error, `None` on an empty result set, the data otherwise. -/
def getRemoteData (config : Option DbConfig) (fetch : FetchOutcome) :
    Option (List RawRecord) :=
  match config with
  | none => none
  | some c =>
    match c.host with
    | none => none
    | some h =>
      if h.isEmpty then none
      else
        match fetch with
        | .err => none
        | .ok rows => if rows.isEmpty then none else some rows

/-- `initial_data = df.to_dict("records") if df is not None else []`. -/
def initialData (df : Option (List RawRecord)) : List RawRecord :=
  match df with
  | some l => l
  | none => []

/-! ## Concrete rows used by counterexamples and witnesses -/

/-- A row with every field missing. -/
def blankRecord : RawRecord :=
  { date := none, subscriptionType := none, lastPaymentReceivedOn := none
    lastAmountPaidEUR := none, location := none, userId := none
    initialSubsStartDate := none, subscriptionCanceledAt := none }

/-- A paid row satisfying both conjuncts: type `new`, payment after the
event. -/
def rcBoth : RawRecord :=
  { blankRecord with
    date := some 0, subscriptionType := some ("new")
    lastPaymentReceivedOn := some 864000, lastAmountPaidEUR := some 100 }

/-- Same row with only the payment conjunct flipped: payment received ten
days before the event. -/
def rcPayBeforeEvent : RawRecord :=
  { rcBoth with date := some 864000, lastPaymentReceivedOn := some 0 }

/-- Same row with only the type conjunct flipped: a `trial` row. -/
def rcTrialType : RawRecord :=
  { rcBoth with subscriptionType := some ("trial") }

/-- A `New` row whose payment date is missing: no revenue page would call
it paid, yet the paid-volume pages count it. -/
def rcPaidNoPayment : RawRecord :=
  { blankRecord with date := some 0, subscriptionType := some ("New") }

/-- A paid row with a negative amount (a parsed refund), payment on day 0. -/
def rcNegativeAmount : RawRecord :=
  { blankRecord with
    date := some 0, subscriptionType := some ("new")
    lastPaymentReceivedOn := some 0, lastAmountPaidEUR := some (-10) }

/-- A paid row of amount `0` whose payment falls on day 2. -/
def rcZeroAmountDay2 : RawRecord :=
  { blankRecord with
    date := some 172800, subscriptionType := some ("new")
    lastPaymentReceivedOn := some 172800, lastAmountPaidEUR := some 0 }

/-- Input refuting the average inequality: total `-10` spread over a
3-day period with 2 active days. -/
def exNegRevenue : List RawRecord := [rcNegativeAmount, rcZeroAmountDay2]

/-- A paid row paying at 23:00 of day 0. -/
def rcLateDay0 : RawRecord :=
  { blankRecord with
    date := some 0, subscriptionType := some ("new")
    lastPaymentReceivedOn := some 82800, lastAmountPaidEUR := some 60 }

/-- A paid row paying at 01:00 of day 1. -/
def rcEarlyDay1 : RawRecord :=
  { blankRecord with
    date := some 0, subscriptionType := some ("new")
    lastPaymentReceivedOn := some 90000, lastAmountPaidEUR := some 60 }

/-- Input where every calendar day of the span is active yet the
timestamp arithmetic sees a 1-day period. -/
def exSpanSkew : List RawRecord := [rcLateDay0, rcEarlyDay1]

/-- A paid row paying on day 2 (used by the C2 witness). -/
def rcPaidDay2 : RawRecord :=
  { blankRecord with
    date := some 172800, subscriptionType := some ("new")
    lastPaymentReceivedOn := some 172800, lastAmountPaidEUR := some 50 }

/-- Two active days with non-negative revenue inside a 3-day period. -/
def exTwoActiveDays : List RawRecord := [rcBoth, rcPaidDay2]

/-- A month group of daily buckets: two active days. -/
def exMonthGroup : List (ℤ × ℚ) := [(0, 5), (1, 7)]

/-- A valid `new` row whose amount did not parse: `revenue_insights`
drops it, `churn_analysis` keeps it with amount `0`. -/
def rcMissingAmount : RawRecord :=
  { blankRecord with
    date := some 0, subscriptionType := some ("new")
    lastPaymentReceivedOn := some 0 }

/-- An event at noon of day 0: it falls on day 0 but is rejected by the
inclusive-looking end bound `Date <= midnight-of-day-0`. -/
def rcNoonDay0 : RawRecord :=
  { blankRecord with date := some 43200, subscriptionType := some ("new") }

/-- An event exactly at midnight of day 0. -/
def rcMidnightDay0 : RawRecord :=
  { blankRecord with date := some 0, subscriptionType := some ("new") }

/-- An active (never cancelled) subscriber who started at time 0. -/
def rcActiveUser : RawRecord :=
  { blankRecord with userId := some 1, initialSubsStartDate := some 0 }

/-- A cancelled subscriber: started at time 0, cancelled on day 5. -/
def rcCancelledUser : RawRecord :=
  { blankRecord with
    userId := some 2, initialSubsStartDate := some 0
    subscriptionCanceledAt := some 432000 }

/-- Rows for the gap-fill witness: `new` on day 0 and `trial` on day 2,
leaving day 1 and every absent combination to be zero-filled. -/
def exGapRows : List RawRecord :=
  [ { blankRecord with date := some 0, subscriptionType := some ("new") },
    { blankRecord with date := some 172800, subscriptionType := some ("trial") } ]

/-! ## Shared lemmas -/

/-- A row survives the revenue cleaning chain iff it came from the input
and passes the presence, type and payment tests. -/
theorem mem_revenueCleanRows {r : RawRecord} {rows : List RawRecord} :
    r ∈ revenueCleanRows rows ↔
      r ∈ rows ∧ fieldsOkRev r = true ∧ typeOk r = true ∧ payOk r = true := by
  simp only [revenueCleanRows, revenueTypeFiltered, revenueDropna,
    List.mem_filter, and_assoc]

/-- A row is counted by the paid-volume page iff it came from the input,
has the two required fields, and has a paid type. -/
theorem mem_paidSubsPaidRows {r : RawRecord} {rows : List RawRecord} :
    r ∈ paidSubsPaidRows rows ↔
      r ∈ rows ∧ fieldsOkPS r = true ∧ typeOk r = true := by
  simp only [paidSubsPaidRows, paidSubsDropna, List.mem_filter, and_assoc]

/-- The four sequential masks collapse to one filter by the row-level
conjunction of the supplied predicates. -/
theorem applyFilters_eq_filter (rows : List RawRecord) (sd ed : Option ℤ)
    (cs ts : List String) :
    applyFilters rows sd ed cs ts = rows.filter (passesFilters sd ed cs ts) := by
  unfold applyFilters passesFilters
  cases sd <;> cases ed <;> cases hc : cs.isEmpty <;> cases ht : ts.isEmpty <;>
    simp only [hc, ht, Bool.false_eq_true, if_true, if_false, List.filter_filter,
      Bool.true_and, Bool.and_true, Bool.false_or, Bool.true_or, Bool.or_false] <;>
    first
      | rfl
      | (symm; exact List.filter_eq_self.mpr fun a _ => rfl)
      | exact List.filter_congr fun a _ => by
          simp [Bool.and_comm, Bool.and_left_comm, Bool.and_assoc]

/-! ## C1 — the "paid" classification rule -/

/-- C1 counterexample: a `New` record whose payment date is missing is
counted as a paid subscription by `paid_subs_insights.py` even though the
two-conjunct rule rejects it (the payment conjunct is false), so not
every paid-metrics page applies the two-conjunct rule. -/
theorem revenue_paid_rule_counterexample :
    paidSubsPaidRows [rcPaidNoPayment] = [rcPaidNoPayment] ∧
      typeOk rcPaidNoPayment = true ∧ payOk rcPaidNoPayment = false := by
  decide

/-- C1 (amended): `revenue_insights.py` classifies a record as paid iff
it has the four required fields, its normalized type is in
{new, renewed, upgraded}, and its payment date is on or after its event
date; the two conjuncts are independently necessary (flipping either one
of `rcBoth` reclassifies it).  The paid-volume page
`paid_subs_insights.py`, however, classifies by the type conjunct alone:
it keeps `rcPayBeforeEvent`, whose payment predates its event. -/
theorem revenue_paid_rule :
    (∀ (r : RawRecord) (rows : List RawRecord),
        r ∈ revenueCleanRows rows ↔
          r ∈ rows ∧ fieldsOkRev r = true ∧ typeOk r = true ∧ payOk r = true) ∧
    revenueCleanRows [rcBoth] = [rcBoth] ∧
    revenueCleanRows [rcPayBeforeEvent] = [] ∧
    revenueCleanRows [rcTrialType] = [] ∧
    (∀ (r : RawRecord) (rows : List RawRecord),
        r ∈ paidSubsPaidRows rows ↔
          r ∈ rows ∧ fieldsOkPS r = true ∧ typeOk r = true) ∧
    paidSubsPaidRows [rcPayBeforeEvent] = [rcPayBeforeEvent] :=
  ⟨fun _ _ => mem_revenueCleanRows, by decide, by decide, by decide,
    fun _ _ => mem_paidSubsPaidRows, by decide⟩

/-! ## C6 — Filter Stage semantics -/

/-- C6 counterexample: with only an end bound of day 0 supplied, an event
at noon of day 0 falls on the end day yet is removed, because the row
timestamp is compared against midnight of the end day. -/
theorem filter_stage_counterexample :
    applyFilters [rcNoonDay0] none (some 0) [] [] = [] ∧
      dayOf 43200 = 0 ∧ rcNoonDay0.date = some 43200 := by
  decide

/-- C6 (amended): the Filter Stage returns exactly the rows satisfying
the conjunction of the supplied predicates, each bound and set being
independently optional, with an unsupplied (or empty) predicate passing
all rows; the date predicates compare the row timestamp against midnight
of the bound day, so the start bound admits every timestamp of the start
day while the end bound admits only the exact midnight instant of the
end day. -/
theorem filter_stage_conjunction :
    (∀ (rows : List RawRecord) (sd ed : Option ℤ) (cs ts : List String),
        applyFilters rows sd ed cs ts = rows.filter (passesFilters sd ed cs ts)) ∧
    (∀ (r : RawRecord) (d t : ℤ), r.date = some t → dayOf t = d →
        dateGeB r (d * secPerDay) = true) ∧
    (∀ (r : RawRecord) (d : ℤ), r.date = some (d * secPerDay) →
        dateLeB r (d * secPerDay) = true) ∧
    (∀ (r : RawRecord) (cs : List String), passesFilters none none cs [] r =
        (cs.isEmpty || locIn r cs)) := by
  refine ⟨applyFilters_eq_filter, ?_, ?_, ?_⟩
  · intro r d t hdate hday
    simp only [dateGeB, hdate, decide_eq_true_eq]
    simp only [dayOf, secPerDay] at hday ⊢
    omega
  · intro r d hdate
    simp [dateLeB, hdate]
  · intro r cs
    simp [passesFilters]

/-- C6 witness: instantiating the amended Filter Stage theorem at a
concrete table and bounds. -/
theorem filter_stage_conjunction_witness :
    dateGeB rcNoonDay0 (0 * secPerDay) = true ∧
      dateLeB rcMidnightDay0 (0 * secPerDay) = true :=
  ⟨filter_stage_conjunction.2.1 rcNoonDay0 0 43200 (by decide) (by decide),
    filter_stage_conjunction.2.2.1 rcMidnightDay0 0 (by decide)⟩

/-! ## C7 — purity of the pipeline -/

/-- C7 counterexample: the duration page is not a function of the table
and parameters alone — it reads the wall clock.  The same single-row
table yields different statistics when the callback runs one day later
(the active subscriber's duration grows from 1 to 2 days). -/
theorem pipeline_purity_counterexample :
    sdStats [rcActiveUser] 86400 0 99999 ≠ sdStats [rcActiveUser] 172800 0 99999 := by
  have h1 : sdStats [rcActiveUser] 86400 0 99999 = (1, 1, 1, 1) := by
    norm_num [sdStats, sdFiltered, sdDurations, sdDedup, dedupByUser, dedupByUserAux,
      sdSorted, sdDropna, List.insertionSort, sdDuration, sdDurationRaw, sdStart,
      rcActiveUser, blankRecord, secPerDay, meanQ, medianQ, minQ, maxQ, List.min?,
      List.max?]
  have h2 : sdStats [rcActiveUser] 172800 0 99999 = (2, 2, 2, 2) := by
    norm_num [sdStats, sdFiltered, sdDurations, sdDedup, dedupByUser, dedupByUserAux,
      sdSorted, sdDropna, List.insertionSort, sdDuration, sdDurationRaw, sdStart,
      rcActiveUser, blankRecord, secPerDay, meanQ, medianQ, minQ, maxQ, List.min?,
      List.max?]
  rw [h1, h2]
  decide

/-- C7 (amended): the Filter Stage itself is a pure, deterministic
transform: it is one boolean filter of its input, and re-applying it with
identical predicates to its own output changes nothing; the page
pipelines are deterministic only once the wall-clock instant is taken as
an explicit input. -/
theorem filter_stage_idempotent :
    ∀ (rows : List RawRecord) (sd ed : Option ℤ) (cs ts : List String),
      applyFilters (applyFilters rows sd ed cs ts) sd ed cs ts =
        applyFilters rows sd ed cs ts := by
  intro rows sd ed cs ts
  rw [applyFilters_eq_filter, applyFilters_eq_filter, List.filter_filter]
  exact List.filter_congr fun a _ => by
    cases passesFilters sd ed cs ts a <;> rfl

/-! ## C8 — coercion of missing amounts -/

/-- The revenue cleaning chain is one filter over the input rows. -/
theorem revenueCleanRows_eq_filter (rows : List RawRecord) :
    revenueCleanRows rows =
      rows.filter fun r => payOk r && (typeOk r && fieldsOkRev r) := by
  simp [revenueCleanRows, revenueTypeFiltered, revenueDropna, List.filter_filter]

/-- C8 counterexample: a `new` row with valid dates but an unparsable
amount is dropped wholesale by `revenue_insights.py` (its dropna covers
`lastAmountPaidEUR`), while the claim says such a row is never dropped
and its amount becomes `0` — which only `churn_analysis.py` does. -/
theorem amount_coercion_counterexample :
    rcMissingAmount.lastAmountPaidEUR = none ∧
      revenueCleanRows [rcMissingAmount] = [] ∧
      churnLastAmount rcMissingAmount = 0 := by
  refine ⟨rfl, by decide, ?_⟩
  simp [churnLastAmount, rcMissingAmount, blankRecord]

/-- C8 (amended): `churn_analysis.py` coerces a missing `amount_paid` to
`0`; `revenue_insights.py` instead drops any row whose amount is missing,
so the row-preservation half of the claim fails there.  Downstream
summation is nevertheless unaffected: the revenue total over the dropped
rows equals the total obtained by keeping those rows with amount `0`. -/
theorem amount_coercion :
    (∀ r : RawRecord, r.lastAmountPaidEUR = none → churnLastAmount r = 0) ∧
    (∀ (r : RawRecord) (rows : List RawRecord),
        r.lastAmountPaidEUR = none → r ∉ revenueCleanRows rows) ∧
    (∀ rows : List RawRecord,
        totalRevenue rows =
          ((rows.filter fun r =>
              payOk r && (typeOk r && fieldsOkRevNoAmount r)).map amountOf).sum) := by
  refine ⟨?_, ?_, ?_⟩
  · intro r h
    simp [churnLastAmount, h]
  · intro r rows h hmem
    have h2 := (mem_revenueCleanRows.mp hmem).2.1
    simp [fieldsOkRev, h] at h2
  · intro rows
    rw [totalRevenue, revenueCleanRows_eq_filter]
    induction rows with
    | nil => rfl
    | cons r rs ih =>
      have hfe : fieldsOkRev r = (fieldsOkRevNoAmount r && r.lastAmountPaidEUR.isSome) := by
        simp [fieldsOkRev, fieldsOkRevNoAmount, Bool.and_comm, Bool.and_left_comm,
          Bool.and_assoc]
      simp only [List.filter_cons]
      rw [hfe]
      by_cases h3 : fieldsOkRevNoAmount r = true <;>
        by_cases h1 : payOk r = true <;> by_cases h2 : typeOk r = true <;>
          cases ha : r.lastAmountPaidEUR <;>
            simp [h1, h2, h3, ha, amountOf, ih]

/-- C8 witness: the amended theorem applied to the concrete row with a
missing amount. -/
theorem amount_coercion_witness :
    churnLastAmount rcMissingAmount = 0 ∧
      rcMissingAmount ∉ revenueCleanRows [rcMissingAmount] :=
  ⟨amount_coercion.1 rcMissingAmount rfl,
    amount_coercion.2.1 rcMissingAmount [rcMissingAmount] rfl⟩

/-! ## C10 — remote fetch never yields an empty table -/

/-- C10: `get_remote_data` returns `None` or a non-empty table: a missing
configuration, a missing or empty host, a raised fetch, and an empty
result set all map to `None` — the caller cannot tell the last two
apart — and at application start a `None` snapshot becomes the empty
in-memory record list rather than an exception. -/
theorem remote_fetch_never_empty :
    (∀ (config : Option DbConfig) (fetch : FetchOutcome),
        getRemoteData config fetch = none ∨
          ∃ rows, getRemoteData config fetch = some rows ∧ rows ≠ []) ∧
    (∀ fetch, getRemoteData none fetch = none) ∧
    (∀ config, getRemoteData config .err = none) ∧
    (∀ config, getRemoteData config (.ok []) = none) ∧
    initialData none = [] ∧
    (∀ l, initialData (some l) = l) := by
  refine ⟨?_, ?_, ?_, ?_, rfl, fun _ => rfl⟩
  · intro config fetch
    match config with
    | none => exact Or.inl rfl
    | some c =>
      match hh : c.host with
      | none => left; simp [getRemoteData, hh]
      | some h =>
        by_cases he : h.isEmpty
        · left; simp [getRemoteData, hh, he]
        · match fetch with
          | .err => left; simp [getRemoteData, hh, he]
          | .ok rows =>
            by_cases hr : rows.isEmpty
            · left; simp [getRemoteData, hh, he, hr]
            · right
              refine ⟨rows, ?_, ?_⟩
              · simp [getRemoteData, hh, he, hr]
              · intro hnil
                simp [hnil] at hr
  · intro fetch; rfl
  · intro config
    match config with
    | none => rfl
    | some c =>
      match hh : c.host with
      | none => simp [getRemoteData, hh]
      | some h =>
        by_cases he : h.isEmpty <;> simp [getRemoteData, hh, he]
  · intro config
    match config with
    | none => rfl
    | some c =>
      match hh : c.host with
      | none => simp [getRemoteData, hh]
      | some h =>
        by_cases he : h.isEmpty <;> simp [getRemoteData, hh, he]

/-! ## C3 — empty filtered data never raises -/

/-- `firstUniques` of a non-empty list is non-empty. -/
theorem firstUniques_ne_nil {α : Type} [DecidableEq α] {l : List α}
    (h : l ≠ []) : firstUniques l ≠ [] := by
  match l with
  | [] => exact absurd rfl h
  | x :: xs =>
    simp [firstUniques, firstUniquesAux]

/-- If the revenue cleaning keeps at least one row, the daily series is
non-empty. -/
theorem dailySums_ne_nil {rows : List RawRecord}
    (h : revenueCleanRows rows ≠ []) : dailySums rows ≠ [] := by
  have h1 : (revenueCleanRows rows).map payDay ≠ [] := by
    simpa using h
  have h2 : firstUniques ((revenueCleanRows rows).map payDay) ≠ [] :=
    firstUniques_ne_nil h1
  have h3 : dailyDays rows ≠ [] := by
    intro hcon
    apply h2
    have := List.length_insertionSort (α := ℤ) (· ≤ ·)
      (firstUniques ((revenueCleanRows rows).map payDay))
    rw [← dailyDays] at this
    rw [hcon] at this
    exact List.eq_nil_of_length_eq_zero this.symm
  simpa [dailySums] using h3

/-- `argmaxFirst` is defined on every non-empty series. -/
theorem argmaxFirst_isSome {β : Type} [LinearOrder β] {l : List (ℤ × β)}
    (h : l ≠ []) : (argmaxFirst l).isSome = true := by
  match l with
  | [] => exact absurd rfl h
  | p :: ps =>
    rw [argmaxFirst]
    match argmaxFirst ps with
    | none => rfl
    | some q => by_cases hq : p.2 < q.2 <;> simp [hq]

/-- `argminFirst` is defined on every non-empty series. -/
theorem argminFirst_isSome {β : Type} [LinearOrder β] {l : List (ℤ × β)}
    (h : l ≠ []) : (argminFirst l).isSome = true := by
  match l with
  | [] => exact absurd rfl h
  | p :: ps =>
    rw [argminFirst]
    match argminFirst ps with
    | none => rfl
    | some q => by_cases hq : q.2 < p.2 <;> simp [hq]

/-- C3: when the filters leave no data, no page statistic raises: the
revenue page short-circuits to an informational warning alert (never the
danger color) as soon as the cleaned frame is empty, on non-empty cleaned
data its `idxmax`/`idxmin` lookups are defined, and the duration page
reports the all-zero statistics block when its range filter eliminates
every user. -/
theorem empty_filter_zero_kpis :
    (∀ rows : List RawRecord, revenueCleanRows rows = [] →
        revenuePage rows = .alert .warning) ∧
    (∀ rows : List RawRecord, revenueCleanRows rows ≠ [] →
        ∃ k, revenuePage rows = .content k ∧
          k.maxDay.isSome = true ∧ k.minDay.isSome = true) ∧
    (∀ (rows : List RawRecord) (now : ℤ) (lo hi : ℚ),
        sdFiltered rows now lo hi = [] → sdStats rows now lo hi = (0, 0, 0, 0)) := by
  refine ⟨?_, ?_, ?_⟩
  · intro rows h
    by_cases hr : rows.isEmpty <;> simp [revenuePage, hr, h]
  · intro rows h
    have hrows : rows.isEmpty = false := by
      rcases hne : revenueCleanRows rows with _ | ⟨r, rest⟩
      · exact absurd hne h
      · have : r ∈ revenueCleanRows rows := by rw [hne]; exact List.mem_cons_self r rest
        have hmem : r ∈ rows := (mem_revenueCleanRows.mp this).1
        rcases rows with _ | _
        · simp at hmem
        · rfl
    have hclean : (revenueCleanRows rows).isEmpty = false := by
      rcases hne : revenueCleanRows rows with _ | _
      · exact absurd hne h
      · rfl
    refine ⟨{ total := totalRevenue rows, periodDays := totalDaysPeriod rows
              avgAll := avgAllDays rows, avgActive := avgActiveDays rows
              maxDay := argmaxFirst (dailySums rows)
              minDay := argminFirst (dailySums rows) }, ?_, ?_, ?_⟩
    · simp [revenuePage, hrows, hclean]
    · exact argmaxFirst_isSome (dailySums_ne_nil h)
    · exact argminFirst_isSome (dailySums_ne_nil h)
  · intro rows now lo hi h
    simp [sdStats, h]

/-- C3 witness: the theorem applied at a table whose only row is filtered
away (trial type), a table with one genuinely paid row, and a duration
query whose range `[5, 3]` is empty. -/
theorem empty_filter_zero_kpis_witness :
    revenuePage [rcTrialType] = .alert .warning ∧
      (∃ k, revenuePage [rcBoth] = .content k ∧
        k.maxDay.isSome = true ∧ k.minDay.isSome = true) ∧
      sdStats [rcActiveUser] 86400 5 3 = (0, 0, 0, 0) :=
  ⟨empty_filter_zero_kpis.1 [rcTrialType] (by decide),
    empty_filter_zero_kpis.2.1 [rcBoth] (by decide),
    empty_filter_zero_kpis.2.2 [rcActiveUser] 86400 5 3 (by
      norm_num [sdFiltered, sdDurations, sdDedup, dedupByUser, dedupByUserAux,
        sdSorted, sdDropna, List.insertionSort, sdDuration, sdDurationRaw,
        sdStart, rcActiveUser, blankRecord, secPerDay])⟩

/-! ## C9 — durations are clamped non-negative -/

/-- The clamp of the duration page never lets a negative value through. -/
theorem sdDuration_nonneg (now : ℤ) (r : RawRecord) : 0 ≤ sdDuration now r := by
  rw [sdDuration]
  split
  · assumption
  · exact le_refl 0

/-- Elements of the filtered duration list are clamped values. -/
theorem sdFiltered_nonneg (rows : List RawRecord) (now : ℤ) (lo hi : ℚ) :
    ∀ x ∈ sdFiltered rows now lo hi, 0 ≤ x := by
  intro x hx
  have hx2 : x ∈ sdDurations rows now := List.mem_of_mem_filter hx
  rcases List.mem_map.mp hx2 with ⟨r, _, hr⟩
  rw [← hr]
  exact sdDuration_nonneg now r

/-- A `getD` with default `0` over a non-negative list is non-negative. -/
theorem getD_nonneg {l : List ℚ} (h : ∀ x ∈ l, 0 ≤ x) (i : ℕ) :
    0 ≤ l.getD i 0 := by
  induction l generalizing i with
  | nil => simp [List.getD]
  | cons x xs ih =>
    match i with
    | 0 => exact h x (List.mem_cons_self x xs)
    | n + 1 =>
      rw [List.getD_cons_succ]
      exact ih (fun y hy => h y (List.mem_cons_of_mem x hy)) n

/-- The mean of a non-negative list is non-negative. -/
theorem meanQ_nonneg {l : List ℚ} (h : ∀ x ∈ l, 0 ≤ x) : 0 ≤ meanQ l := by
  rw [meanQ]
  split
  · exact le_refl 0
  · exact div_nonneg (List.sum_nonneg h) (by positivity)

/-- The median of a non-negative list is non-negative. -/
theorem medianQ_nonneg {l : List ℚ} (h : ∀ x ∈ l, 0 ≤ x) : 0 ≤ medianQ l := by
  rw [medianQ]
  have hs : ∀ x ∈ List.insertionSort (· ≤ ·) l, 0 ≤ x := fun x hx =>
    h x ((List.perm_insertionSort (· ≤ ·) l).mem_iff.mp hx)
  split
  · exact le_refl 0
  · split
    · exact getD_nonneg hs _
    · have h1 := getD_nonneg hs ((List.insertionSort (· ≤ ·) l).length / 2 - 1)
      have h2 := getD_nonneg hs ((List.insertionSort (· ≤ ·) l).length / 2)
      positivity

/-- The minimum of a non-negative list is non-negative. -/
theorem minQ_nonneg {l : List ℚ} (h : ∀ x ∈ l, 0 ≤ x) : 0 ≤ minQ l := by
  rw [minQ]
  rcases hm : l.min? with _ | a
  · simp
  · simpa using h a (List.min?_mem (fun a b => min_choice a b) hm)

/-- The maximum of a non-negative list is non-negative. -/
theorem maxQ_nonneg {l : List ℚ} (h : ∀ x ∈ l, 0 ≤ x) : 0 ≤ maxQ l := by
  rw [maxQ]
  rcases hm : l.max? with _ | a
  · simp
  · simpa using h a (List.max?_mem (fun a b => max_choice a b) hm)

/-- C9: every duration or tenure the three pages compute is clamped
non-negative — the duration page's `x if x >= 0 else 0`, the churn
script's `max(0, x)`, and the retention page's `clip(lower=0)` — and the
duration statistics derived downstream (mean, median, min, max) are
therefore non-negative as well. -/
theorem durations_clamped_nonneg :
    (∀ (now : ℤ) (r : RawRecord), 0 ≤ sdDuration now r) ∧
    (∀ (today : ℤ) (r : RawRecord), 0 ≤ churnTenureDays today r) ∧
    (∀ (now : ℤ) (r : RawRecord), 0 ≤ urDuration now r) ∧
    (∀ (rows : List RawRecord) (now : ℤ) (lo hi : ℚ),
        0 ≤ (sdStats rows now lo hi).1 ∧ 0 ≤ (sdStats rows now lo hi).2.1 ∧
          0 ≤ (sdStats rows now lo hi).2.2.1 ∧ 0 ≤ (sdStats rows now lo hi).2.2.2) := by
  refine ⟨sdDuration_nonneg, ?_, ?_, ?_⟩
  · intro today r
    exact le_max_left 0 _
  · intro now r
    exact le_max_left 0 _
  · intro rows now lo hi
    have h := sdFiltered_nonneg rows now lo hi
    rw [sdStats]
    split
    · exact ⟨meanQ_nonneg h, medianQ_nonneg h, minQ_nonneg h, maxQ_nonneg h⟩
    · exact ⟨le_refl 0, le_refl 0, le_refl 0, le_refl 0⟩

/-! ## C5 — extrema and the first-match tie-break -/

/-- `argmaxFirst` is `none` only on the empty series. -/
theorem argmaxFirst_eq_none {β : Type} [LinearOrder β] {l : List (ℤ × β)}
    (h : argmaxFirst l = none) : l = [] := by
  match l with
  | [] => rfl
  | p :: ps =>
    rw [argmaxFirst] at h
    match hx : argmaxFirst ps with
    | none => rw [hx] at h; exact absurd h (by simp)
    | some q => rw [hx] at h; by_cases hq : p.2 < q.2 <;> simp [hq] at h

/-- `argminFirst` is `none` only on the empty series. -/
theorem argminFirst_eq_none {β : Type} [LinearOrder β] {l : List (ℤ × β)}
    (h : argminFirst l = none) : l = [] := by
  match l with
  | [] => rfl
  | p :: ps =>
    rw [argminFirst] at h
    match hx : argminFirst ps with
    | none => rw [hx] at h; exact absurd h (by simp)
    | some q => rw [hx] at h; by_cases hq : q.2 < p.2 <;> simp [hq] at h

/-- The bucket `argmaxFirst` reports belongs to the series and attains
the maximum value. -/
theorem argmaxFirst_spec {β : Type} [LinearOrder β] {l : List (ℤ × β)}
    {p : ℤ × β} :
    argmaxFirst l = some p → p ∈ l ∧ ∀ q ∈ l, q.2 ≤ p.2 := by
  induction l generalizing p with
  | nil => intro hp; exact absurd hp (by simp [argmaxFirst])
  | cons x xs ih =>
    intro hp
    rw [argmaxFirst] at hp
    split at hp
    · rename_i hx
      injection hp with hpe
      subst hpe
      have hxs := argmaxFirst_eq_none hx
      subst hxs
      exact ⟨List.mem_cons_self x [], by simp⟩
    · rename_i q0 hx
      rcases ih hx with ⟨hmem, hbound⟩
      by_cases hlt : x.2 < q0.2
      · rw [if_pos hlt] at hp
        injection hp with hpe
        subst hpe
        refine ⟨List.mem_cons_of_mem x hmem, ?_⟩
        intro q hq
        rcases List.mem_cons.mp hq with rfl | hq2
        · exact le_of_lt hlt
        · exact hbound q hq2
      · rw [if_neg hlt] at hp
        injection hp with hpe
        subst hpe
        refine ⟨List.mem_cons_self x xs, ?_⟩
        intro q hq
        rcases List.mem_cons.mp hq with rfl | hq2
        · exact le_refl _
        · exact le_trans (hbound q hq2) (le_of_not_lt hlt)

/-- The bucket `argminFirst` reports belongs to the series and attains
the minimum value. -/
theorem argminFirst_spec {β : Type} [LinearOrder β] {l : List (ℤ × β)}
    {p : ℤ × β} :
    argminFirst l = some p → p ∈ l ∧ ∀ q ∈ l, p.2 ≤ q.2 := by
  induction l generalizing p with
  | nil => intro hp; exact absurd hp (by simp [argminFirst])
  | cons x xs ih =>
    intro hp
    rw [argminFirst] at hp
    split at hp
    · rename_i hx
      injection hp with hpe
      subst hpe
      have hxs := argminFirst_eq_none hx
      subst hxs
      exact ⟨List.mem_cons_self x [], by simp⟩
    · rename_i q0 hx
      rcases ih hx with ⟨hmem, hbound⟩
      by_cases hlt : q0.2 < x.2
      · rw [if_pos hlt] at hp
        injection hp with hpe
        subst hpe
        refine ⟨List.mem_cons_of_mem x hmem, ?_⟩
        intro q hq
        rcases List.mem_cons.mp hq with rfl | hq2
        · exact le_of_lt hlt
        · exact hbound q hq2
      · rw [if_neg hlt] at hp
        injection hp with hpe
        subst hpe
        refine ⟨List.mem_cons_self x xs, ?_⟩
        intro q hq
        rcases List.mem_cons.mp hq with rfl | hq2
        · exact le_refl _
        · exact le_trans (le_of_not_lt hlt) (hbound q hq2)

/-- Over a series whose keys strictly increase, `argmaxFirst` breaks ties
towards the smallest key: it is the first occurrence of the maximum. -/
theorem argmaxFirst_tiebreak {β : Type} [LinearOrder β] {l : List (ℤ × β)}
    {p : ℤ × β} (hsort : l.Pairwise fun a b => a.1 < b.1) :
    argmaxFirst l = some p → ∀ q ∈ l, q.2 = p.2 → p.1 ≤ q.1 := by
  induction l generalizing p with
  | nil => intro hp; exact absurd hp (by simp [argmaxFirst])
  | cons x xs ih =>
    intro hp
    rcases List.pairwise_cons.mp hsort with ⟨hhead, htail⟩
    rw [argmaxFirst] at hp
    split at hp
    · rename_i hx
      injection hp with hpe
      subst hpe
      have hxs := argmaxFirst_eq_none hx
      subst hxs
      intro q hq _
      rcases List.mem_cons.mp hq with rfl | hq2
      · exact le_refl _
      · simp at hq2
    · rename_i q0 hx
      by_cases hlt : x.2 < q0.2
      · rw [if_pos hlt] at hp
        injection hp with hpe
        subst hpe
        intro q hq heq
        rcases List.mem_cons.mp hq with rfl | hq2
        · exact absurd heq (ne_of_lt hlt)
        · exact ih htail hx q hq2 heq
      · rw [if_neg hlt] at hp
        injection hp with hpe
        subst hpe
        intro q hq _
        rcases List.mem_cons.mp hq with rfl | hq2
        · exact le_refl _
        · exact le_of_lt (hhead q hq2)

/-- Over a series whose keys strictly increase, `argminFirst` breaks ties
towards the smallest key: it is the first occurrence of the minimum. -/
theorem argminFirst_tiebreak {β : Type} [LinearOrder β] {l : List (ℤ × β)}
    {p : ℤ × β} (hsort : l.Pairwise fun a b => a.1 < b.1) :
    argminFirst l = some p → ∀ q ∈ l, q.2 = p.2 → p.1 ≤ q.1 := by
  induction l generalizing p with
  | nil => intro hp; exact absurd hp (by simp [argminFirst])
  | cons x xs ih =>
    intro hp
    rcases List.pairwise_cons.mp hsort with ⟨hhead, htail⟩
    rw [argminFirst] at hp
    split at hp
    · rename_i hx
      injection hp with hpe
      subst hpe
      have hxs := argminFirst_eq_none hx
      subst hxs
      intro q hq _
      rcases List.mem_cons.mp hq with rfl | hq2
      · exact le_refl _
      · simp at hq2
    · rename_i q0 hx
      by_cases hlt : q0.2 < x.2
      · rw [if_pos hlt] at hp
        injection hp with hpe
        subst hpe
        intro q hq heq
        rcases List.mem_cons.mp hq with rfl | hq2
        · exact absurd heq.symm (ne_of_lt hlt)
        · exact ih htail hx q hq2 heq
      · rw [if_neg hlt] at hp
        injection hp with hpe
        subst hpe
        intro q hq _
        rcases List.mem_cons.mp hq with rfl | hq2
        · exact le_refl _
        · exact le_of_lt (hhead q hq2)

/-- Membership in `firstUniquesAux`: in the list and not yet seen. -/
theorem mem_firstUniquesAux {α : Type} [DecidableEq α] {x : α}
    {seen l : List α} :
    x ∈ firstUniquesAux seen l ↔ x ∈ l ∧ x ∉ seen := by
  induction l generalizing seen with
  | nil => simp [firstUniquesAux]
  | cons y ys ih =>
    rw [firstUniquesAux]
    by_cases hy : y ∈ seen
    · rw [if_pos hy, ih]
      constructor
      · rintro ⟨hx, hs⟩
        exact ⟨List.mem_cons_of_mem y hx, hs⟩
      · rintro ⟨hx, hs⟩
        rcases List.mem_cons.mp hx with rfl | hx2
        · exact absurd hy hs
        · exact ⟨hx2, hs⟩
    · rw [if_neg hy]
      simp only [List.mem_cons, ih, List.mem_cons]
      constructor
      · rintro (rfl | ⟨hx, hs⟩)
        · exact ⟨Or.inl rfl, hy⟩
        · exact ⟨Or.inr hx, fun hseen => hs (Or.inr hseen)⟩
      · rintro ⟨rfl | hx, hs⟩
        · exact Or.inl rfl
        · by_cases hxy : x = y
          · exact Or.inl hxy
          · exact Or.inr ⟨hx, fun hmem => hmem.elim hxy hs⟩

/-- Deduplication by first occurrence never repeats a value. -/
theorem nodup_firstUniquesAux {α : Type} [DecidableEq α] (seen l : List α) :
    (firstUniquesAux seen l).Nodup := by
  induction l generalizing seen with
  | nil => simp [firstUniquesAux]
  | cons y ys ih =>
    rw [firstUniquesAux]
    by_cases hy : y ∈ seen
    · rw [if_pos hy]; exact ih seen
    · rw [if_neg hy]
      refine List.nodup_cons.mpr ⟨?_, ih (y :: seen)⟩
      intro hmem
      exact (mem_firstUniquesAux.mp hmem).2 (List.mem_cons_self y seen)

/-- `firstUniques` produces a duplicate-free list. -/
theorem firstUniques_nodup {α : Type} [DecidableEq α] (l : List α) :
    (firstUniques l).Nodup := nodup_firstUniquesAux [] l

/-- `firstUniques` keeps exactly the values of the list. -/
theorem mem_firstUniques {α : Type} [DecidableEq α] {x : α} {l : List α} :
    x ∈ firstUniques l ↔ x ∈ l := by
  simp [firstUniques, mem_firstUniquesAux]

/-- The day keys of the revenue series strictly increase. -/
theorem dailyDays_pairwise (rows : List RawRecord) :
    (dailyDays rows).Pairwise (· < ·) := by
  have hs := List.sorted_insertionSort (α := ℤ) (· ≤ ·)
    (firstUniques ((revenueCleanRows rows).map payDay))
  have hn : (dailyDays rows).Nodup :=
    (List.perm_insertionSort (α := ℤ) (· ≤ ·) _).nodup_iff.mpr
      (firstUniques_nodup _)
  exact List.Sorted.lt_of_le hs hn

/-- The revenue series is laid out in strictly ascending date order. -/
theorem dailySums_pairwise (rows : List RawRecord) :
    (dailySums rows).Pairwise fun a b => a.1 < b.1 := by
  rw [dailySums, List.pairwise_map]
  exact dailyDays_pairwise rows

/-- The day keys of the paid-volume series strictly increase. -/
theorem psDailyDays_pairwise (rows : List RawRecord) :
    (psDailyDays rows).Pairwise (· < ·) := by
  have hs := List.sorted_insertionSort (α := ℤ) (· ≤ ·)
    (firstUniques ((paidSubsPaidRows rows).map eventDay))
  have hn : (psDailyDays rows).Nodup :=
    (List.perm_insertionSort (α := ℤ) (· ≤ ·) _).nodup_iff.mpr
      (firstUniques_nodup _)
  exact List.Sorted.lt_of_le hs hn

/-- The paid-volume series is laid out in strictly ascending date order. -/
theorem psDailyCounts_pairwise (rows : List RawRecord) :
    (psDailyCounts rows).Pairwise fun a b => a.1 < b.1 := by
  rw [psDailyCounts, List.pairwise_map]
  exact psDailyDays_pairwise rows

/-- C5: on every non-empty bucketed daily series — revenue sums on the
revenue page, paid counts on the paid-volume page — the reported Max and
Min buckets attain the extreme value, and among ties the reported bucket
is the first occurrence in ascending date order. -/
theorem extremum_first_match :
    (∀ rows : List RawRecord, dailySums rows ≠ [] →
        (∃ p, argmaxFirst (dailySums rows) = some p ∧ p ∈ dailySums rows ∧
            (∀ q ∈ dailySums rows, q.2 ≤ p.2) ∧
            ∀ q ∈ dailySums rows, q.2 = p.2 → p.1 ≤ q.1) ∧
        ∃ p, argminFirst (dailySums rows) = some p ∧ p ∈ dailySums rows ∧
            (∀ q ∈ dailySums rows, p.2 ≤ q.2) ∧
            ∀ q ∈ dailySums rows, q.2 = p.2 → p.1 ≤ q.1) ∧
    (∀ rows : List RawRecord, psDailyCounts rows ≠ [] →
        (∃ p, argmaxFirst (psDailyCounts rows) = some p ∧ p ∈ psDailyCounts rows ∧
            (∀ q ∈ psDailyCounts rows, q.2 ≤ p.2) ∧
            ∀ q ∈ psDailyCounts rows, q.2 = p.2 → p.1 ≤ q.1) ∧
        ∃ p, argminFirst (psDailyCounts rows) = some p ∧ p ∈ psDailyCounts rows ∧
            (∀ q ∈ psDailyCounts rows, p.2 ≤ q.2) ∧
            ∀ q ∈ psDailyCounts rows, q.2 = p.2 → p.1 ≤ q.1) := by
  constructor
  · intro rows h
    constructor
    · rcases Option.isSome_iff_exists.mp (argmaxFirst_isSome h) with ⟨p, hp⟩
      rcases argmaxFirst_spec hp with ⟨hmem, hbound⟩
      exact ⟨p, hp, hmem, hbound, argmaxFirst_tiebreak (dailySums_pairwise rows) hp⟩
    · rcases Option.isSome_iff_exists.mp (argminFirst_isSome h) with ⟨p, hp⟩
      rcases argminFirst_spec hp with ⟨hmem, hbound⟩
      exact ⟨p, hp, hmem, hbound, argminFirst_tiebreak (dailySums_pairwise rows) hp⟩
  · intro rows h
    constructor
    · rcases Option.isSome_iff_exists.mp (argmaxFirst_isSome h) with ⟨p, hp⟩
      rcases argmaxFirst_spec hp with ⟨hmem, hbound⟩
      exact ⟨p, hp, hmem, hbound, argmaxFirst_tiebreak (psDailyCounts_pairwise rows) hp⟩
    · rcases Option.isSome_iff_exists.mp (argminFirst_isSome h) with ⟨p, hp⟩
      rcases argminFirst_spec hp with ⟨hmem, hbound⟩
      exact ⟨p, hp, hmem, hbound, argminFirst_tiebreak (psDailyCounts_pairwise rows) hp⟩

/-- C5 witness: the theorem applied to the one-row table whose single
paid record makes both series non-empty. -/
theorem extremum_first_match_witness :
    (∃ p, argmaxFirst (dailySums [rcBoth]) = some p ∧ p ∈ dailySums [rcBoth] ∧
        (∀ q ∈ dailySums [rcBoth], q.2 ≤ p.2) ∧
        ∀ q ∈ dailySums [rcBoth], q.2 = p.2 → p.1 ≤ q.1) ∧
      ∃ p, argminFirst (psDailyCounts [rcBoth]) = some p ∧
          p ∈ psDailyCounts [rcBoth] ∧
          (∀ q ∈ psDailyCounts [rcBoth], p.2 ≤ q.2) ∧
          ∀ q ∈ psDailyCounts [rcBoth], q.2 = p.2 → p.1 ≤ q.1 :=
  ⟨(extremum_first_match.1 [rcBoth] (by decide)).1,
    (extremum_first_match.2 [rcBoth] (by decide)).2⟩

/-! ## C2 — the two averages -/

/-- The revenue total over non-negative amounts is non-negative. -/
theorem totalRevenue_nonneg {rows : List RawRecord}
    (h : ∀ r ∈ rows, 0 ≤ r.lastAmountPaidEUR.getD 0) :
    0 ≤ totalRevenue rows := by
  apply List.sum_nonneg
  intro x hx
  rcases List.mem_map.mp hx with ⟨r, hr, rfl⟩
  exact h r (mem_revenueCleanRows.mp hr).1

/-- The period length is floored to at least one day. -/
theorem totalDaysPeriod_pos (rows : List RawRecord) :
    1 ≤ totalDaysPeriod rows := by
  rw [totalDaysPeriod]
  split
  · exact le_refl 1
  · omega

/-- Zero active days means the cleaning removed every row. -/
theorem cleanRows_eq_nil_of_active_eq_zero {rows : List RawRecord}
    (h : activeDayCount rows = 0) : revenueCleanRows rows = [] := by
  by_contra hne
  exact dailySums_ne_nil hne (List.eq_nil_of_length_eq_zero h)

/-- C2 counterexample: the claim fails as stated.  With a parsed refund
of `-10` on day 0 and a `0` payment on day 2 the series has 2 active days
inside a 3-day period, yet `Average(all-days) = -10/3` exceeds
`Average(active-days) = -5`.  And with payments at 23:00 of day 0 and
01:00 of day 1 every calendar day of the span is active, yet the
timestamp arithmetic `(max - min).days + 1` sees a 1-day period, so the
two averages differ (`120` versus `60`) instead of being equal. -/
theorem average_invariant_counterexample :
    ((activeDayCount exNegRevenue : ℤ) < totalDaysPeriod exNegRevenue ∧
        avgActiveDays exNegRevenue < avgAllDays exNegRevenue) ∧
    (activeDayCount exSpanSkew = 2 ∧ dayOf (minPayTs exSpanSkew) = 0 ∧
        dayOf (maxPayTs exSpanSkew) = 1 ∧ totalDaysPeriod exSpanSkew = 1 ∧
        avgAllDays exSpanSkew ≠ avgActiveDays exSpanSkew) := by
  constructor
  · refine ⟨by decide, ?_⟩
    have hclean : revenueCleanRows exNegRevenue = [rcNegativeAmount, rcZeroAmountDay2] := by
      decide
    have hT : totalRevenue exNegRevenue = -10 := by
      rw [totalRevenue, hclean]
      norm_num [amountOf, rcNegativeAmount, rcZeroAmountDay2, blankRecord]
    have hper : totalDaysPeriod exNegRevenue = 3 := by decide
    have hact : activeDayCount exNegRevenue = 2 := by decide
    rw [avgAllDays, avgActiveDays, hT, hper, hact]
    norm_num
  · refine ⟨by decide, by decide, by decide, by decide, ?_⟩
    have hclean : revenueCleanRows exSpanSkew = [rcLateDay0, rcEarlyDay1] := by
      decide
    have hT : totalRevenue exSpanSkew = 120 := by
      rw [totalRevenue, hclean]
      norm_num [amountOf, rcLateDay0, rcEarlyDay1, blankRecord]
    have hper : totalDaysPeriod exSpanSkew = 1 := by decide
    have hact : activeDayCount exSpanSkew = 2 := by decide
    rw [avgAllDays, avgActiveDays, hT, hper, hact]
    norm_num

/-- C2 (amended): over non-negative amounts, `Average(all-days) ≤
Average(active-days)` whenever the active-day count is below the computed
period length, with equality when the active-day count equals the period
length; and likewise for each per-month breakdown row against its
calendar month length.  (Over the raw data the inequality can flip for
negative amounts, and for the global KPIs an every-day-active series can
still have an active count different from `(max - min).days + 1` when
the extreme timestamps are not day-aligned.) -/
theorem average_invariant :
    (∀ rows : List RawRecord,
        (∀ r ∈ rows, 0 ≤ r.lastAmountPaidEUR.getD 0) →
          (((activeDayCount rows : ℤ) < totalDaysPeriod rows →
              avgAllDays rows ≤ avgActiveDays rows) ∧
            ((activeDayCount rows : ℤ) = totalDaysPeriod rows →
              avgAllDays rows = avgActiveDays rows))) ∧
    (∀ (group : List (ℤ × ℚ)) (daysInMonth : ℕ),
        (∀ q ∈ group, 0 ≤ q.2) →
          ((group.length < daysInMonth →
              monthlyAvgAllDays group daysInMonth ≤ monthlyAvgActiveDays group) ∧
            (group.length = daysInMonth →
              monthlyAvgAllDays group daysInMonth = monthlyAvgActiveDays group))) := by
  constructor
  · intro rows hnn
    have hT : 0 ≤ totalRevenue rows := totalRevenue_nonneg hnn
    have hper : 1 ≤ totalDaysPeriod rows := totalDaysPeriod_pos rows
    constructor
    · intro hlt
      rcases Nat.eq_zero_or_pos (activeDayCount rows) with hz | hpos
      · have hcl := cleanRows_eq_nil_of_active_eq_zero hz
        rw [avgAllDays, avgActiveDays, hz]
        simp [totalRevenue, hcl]
      · rw [avgAllDays, avgActiveDays, if_pos hpos]
        have h1 : (0 : ℚ) < (activeDayCount rows : ℚ) := by exact_mod_cast hpos
        have h2 : ((activeDayCount rows : ℚ)) ≤ ((totalDaysPeriod rows : ℤ) : ℚ) := by
          exact_mod_cast le_of_lt hlt
        exact div_le_div_of_nonneg_left hT h1 h2
    · intro heq
      have hpos : 0 < activeDayCount rows := by omega
      rw [avgAllDays, avgActiveDays, if_pos hpos]
      have hden : ((activeDayCount rows : ℚ)) = ((totalDaysPeriod rows : ℤ) : ℚ) := by
        exact_mod_cast heq
      rw [hden]
  · intro group daysInMonth hq
    have hT : 0 ≤ monthlyTotal group := by
      apply List.sum_nonneg
      intro x hx
      rcases List.mem_map.mp hx with ⟨q, hqm, rfl⟩
      exact hq q hqm
    constructor
    · intro hlt
      rcases Nat.eq_zero_or_pos group.length with hz | hpos
      · have hg : group = [] := List.eq_nil_of_length_eq_zero hz
        subst hg
        rw [monthlyAvgAllDays, monthlyAvgActiveDays]
        simp [monthlyTotal]
      · rw [monthlyAvgAllDays, monthlyAvgActiveDays, if_pos hpos]
        have h1 : (0 : ℚ) < (group.length : ℚ) := by exact_mod_cast hpos
        have h2 : ((group.length : ℚ)) ≤ (daysInMonth : ℚ) := by
          exact_mod_cast le_of_lt hlt
        exact div_le_div_of_nonneg_left hT h1 h2
    · intro heq
      rcases Nat.eq_zero_or_pos group.length with hz | hpos
      · have hg : group = [] := List.eq_nil_of_length_eq_zero hz
        subst hg
        rw [monthlyAvgAllDays, monthlyAvgActiveDays, ← heq]
        simp [monthlyTotal]
      · rw [monthlyAvgAllDays, monthlyAvgActiveDays, if_pos hpos]
        have hden : ((group.length : ℚ)) = (daysInMonth : ℚ) := by exact_mod_cast heq
        rw [hden]

/-- C2 witness: the amended theorem at a table with payments of `100` and
`50` on two active days of a three-day period, and a two-bucket month
group inside a 31-day month. -/
theorem average_invariant_witness :
    avgAllDays exTwoActiveDays ≤ avgActiveDays exTwoActiveDays ∧
      monthlyAvgAllDays exMonthGroup 31 ≤ monthlyAvgActiveDays exMonthGroup :=
  ⟨(average_invariant.1 exTwoActiveDays (by decide)).1 (by decide),
    (average_invariant.2 exMonthGroup 31 (by decide)).1 (by decide)⟩

/-! ## C4 — gap-filled bucket keys are exactly the product -/

/-- Looking up a key in an association list built by pairing each key
with a computed value returns that key's value, or nothing. -/
theorem find?_map_pair {α β : Type} [DecidableEq α] (L : List α)
    (f : α → β) (k : α) :
    ((L.map fun x => (x, f x)).find? fun p => decide (p.1 = k)) =
      if k ∈ L then some (k, f k) else none := by
  induction L with
  | nil => simp
  | cons x xs ih =>
    simp only [List.map_cons]
    by_cases hx : x = k
    · subst hx
      rw [List.find?_cons_of_pos _ (by simp)]
      simp
    · rw [List.find?_cons_of_neg _ (by simp [hx]), ih]
      simp [List.mem_cons, Ne.symm hx]

/-- The value of `reindex(..., fill_value=0)` at a day/type key is the
number of filtered rows carrying exactly that day and type — `0` when the
key was never observed. -/
theorem lookupCount_eq_count (rows : List RawRecord) (d : ℤ) (s : String) :
    lookupCount (groupedCounts rows) d (some s) =
      (observedPairs rows).count (d, s) := by
  simp only [lookupCount, groupedCounts]
  rw [find?_map_pair]
  by_cases hm : (d, s) ∈ firstUniques (observedPairs rows)
  · rw [if_pos hm]
  · rw [if_neg hm]
    exact (List.count_eq_zero.mpr fun hc => hm (mem_firstUniques.mpr hc)).symm

/-- Membership in the full calendar range. -/
theorem mem_fullDayRange {lo hi d : ℤ} :
    d ∈ fullDayRange lo hi ↔ lo ≤ d ∧ d ≤ hi := by
  rw [fullDayRange]
  simp only [List.mem_map, List.mem_range]
  constructor
  · rintro ⟨i, hi2, rfl⟩
    constructor <;> omega
  · rintro ⟨h1, h2⟩
    refine ⟨(d - lo).toNat, ?_, ?_⟩ <;> omega

/-- The full calendar range repeats no day. -/
theorem nodup_fullDayRange (lo hi : ℤ) : (fullDayRange lo hi).Nodup := by
  rw [fullDayRange]
  refine List.Nodup.map ?_ (List.nodup_range _)
  intro a b hab
  simp only [add_right_inj, Nat.cast_inj] at hab
  exact hab

/-- The category axis repeats no category. -/
theorem uniqueTypesOf_nodup (rows : List RawRecord) {sel : List String}
    (h : sel.Nodup) : (uniqueTypesOf rows sel).Nodup := by
  rw [uniqueTypesOf]
  split
  · exact firstUniques_nodup _
  · exact h.map (Option.some_injective String)

/-- The key column of the gap-filled frame is the product of the day
range with the category axis. -/
theorem gapFilled_keys (rows : List RawRecord) (lo hi : ℤ) (sel : List String) :
    (gapFilled rows lo hi sel).map Prod.fst =
      (fullDayRange lo hi).flatMap fun d =>
        (uniqueTypesOf rows sel).map fun ty => (d, ty) := by
  simp only [gapFilled, List.map_flatMap]
  refine congrArg _ (funext fun d => ?_)
  rw [List.map_map]
  rfl

/-- C4: the gap-filled series is keyed exactly by the Cartesian product
of the full calendar day range with the full category axis — every
combination appears, none twice (given a duplicate-free type selection) —
and each key carries the exact count of the filtered rows at that day and
type, hence `0` for every absent combination. -/
theorem gap_fill_product :
    ∀ (rows : List RawRecord) (lo hi : ℤ) (sel : List String), sel.Nodup →
      ((∀ (d : ℤ) (ty : Option String),
          (d, ty) ∈ (gapFilled rows lo hi sel).map Prod.fst ↔
            lo ≤ d ∧ d ≤ hi ∧ ty ∈ uniqueTypesOf rows sel) ∧
        ((gapFilled rows lo hi sel).map Prod.fst).Nodup ∧
        (∀ (d : ℤ) (ty : Option String) (c : ℕ),
          ((d, ty), c) ∈ gapFilled rows lo hi sel →
            c = match ty with
                | some s => (observedPairs rows).count (d, s)
                | none => 0)) := by
  intro rows lo hi sel hsel
  refine ⟨?_, ?_, ?_⟩
  · intro d ty
    rw [gapFilled_keys]
    simp only [List.mem_flatMap, List.mem_map, mem_fullDayRange, Prod.mk.injEq]
    constructor
    · rintro ⟨a, ⟨h1, h2⟩, t, ht, rfl, rfl⟩
      exact ⟨h1, h2, ht⟩
    · rintro ⟨h1, h2, ht⟩
      exact ⟨d, ⟨h1, h2⟩, ty, ht, rfl, rfl⟩
  · rw [gapFilled_keys]
    rw [List.nodup_flatMap]
    constructor
    · intro d _
      exact List.Nodup.map (fun a b hab => by simpa using hab)
        (uniqueTypesOf_nodup rows hsel)
    · refine List.Pairwise.imp ?_ (nodup_fullDayRange lo hi)
      intro a b hne x hxa hxb
      rcases List.mem_map.mp hxa with ⟨t1, _, rfl⟩
      rcases List.mem_map.mp hxb with ⟨t2, _, heq⟩
      exact hne (congrArg Prod.fst heq).symm
  · intro d ty c hmem
    rw [gapFilled] at hmem
    rcases List.mem_flatMap.mp hmem with ⟨a, _, hmem2⟩
    rcases List.mem_map.mp hmem2 with ⟨t, _, heq⟩
    have h1 : a = d := congrArg (fun p => p.1.1) heq
    have h2 : t = ty := congrArg (fun p => p.1.2) heq
    have h3 : lookupCount (groupedCounts rows) a t = c := congrArg Prod.snd heq
    rw [h1, h2] at h3
    rw [← h3]
    cases ty with
    | none => rfl
    | some s => exact lookupCount_eq_count rows d s

/-- C4 witness: the theorem at concrete rows (`new` on day 0, `trial` on
day 2), the day range `0..2`, and an explicitly selected type axis. -/
theorem gap_fill_product_witness :
    ((gapFilled exGapRows 0 2 ["new", "upgraded"]).map Prod.fst).Nodup ∧
      ((0, some ("upgraded")) ∈
          (gapFilled exGapRows 0 2 ["new", "upgraded"]).map Prod.fst ↔
        (0 : ℤ) ≤ 0 ∧ (0 : ℤ) ≤ 2 ∧
          some ("upgraded") ∈ uniqueTypesOf exGapRows ["new", "upgraded"]) :=
  ⟨(gap_fill_product exGapRows 0 2 ["new", "upgraded"] (by decide)).2.1,
    (gap_fill_product exGapRows 0 2 ["new", "upgraded"] (by decide)).1 0
      (some ("upgraded"))⟩

end EmployerSubs
